import Mathlib

/-!
A shallow embedding of the Oracle Challenge prediction engine
(TypeScript sources: `src/game/scorer.ts`, `src/game/resolver.ts`,
`src/moltbook/parser.ts`, `src/db/sqlite.ts`, `src/config.ts`) together
with theorems about its scoring arithmetic, settlement state machine,
outcome matcher and prediction/deadline parser.

Modelling conventions:
* JavaScript numbers are modelled as exact rationals (`ℚ`); on every
  concrete input appearing in a theorem below the IEEE-754 double
  computation of the source yields the same value as the exact rational
  computation, so no rounding divergence is hidden.
* Strings are lists of characters; `String.prototype.toLowerCase` and
  `String.prototype.includes` are modelled on the ASCII range, which
  covers every string the program manipulates.
* Database rows are records; the SQLite `UPDATE` statements of
  `src/db/sqlite.ts` become pure record transformers (an `UPDATE`
  evaluates every right-hand side against the pre-update row).
* I/O-only fields (timestamps `created_at`/`resolved_at`/`updated_at`,
  `tx_hash`, blockchain calls, names and ids) do not influence any
  claim below and are not part of the modelled state.
-/

namespace Oracle

/-! ### Characters and JS string primitives -/

/-- Line feed. -/
def nlChar : Char := Char.ofNat 10

/-- Carriage return. -/
def crChar : Char := Char.ofNat 13

/-- Horizontal tab. -/
def tabChar : Char := Char.ofNat 9

/-- Apostrophe (U+0027). -/
def aposChar : Char := Char.ofNat 39

/-- JS `\s` restricted to the ASCII range (space, tab, LF, VT, FF, CR). -/
def isJsWhitespace (c : Char) : Bool :=
  c = ' ' || c = tabChar || c = nlChar || c = crChar ||
  c = Char.ofNat 11 || c = Char.ofNat 12

/-- JS `\d`. -/
def isDigitCh (c : Char) : Bool := '0' ≤ c && c ≤ '9'

/-- ASCII letter. -/
def isAlphaCh (c : Char) : Bool :=
  ('a' ≤ c && c ≤ 'z') || ('A' ≤ c && c ≤ 'Z')

/-- JS `\w` (letters, digits, underscore). -/
def isWordCh (c : Char) : Bool := isAlphaCh c || isDigitCh c || c = '_'

/-- `String.prototype.toLowerCase` on one ASCII character. -/
def lowerCh (c : Char) : Char :=
  if 'A' ≤ c && c ≤ 'Z' then Char.ofNat (c.toNat + 32) else c

/-- `String.prototype.toLowerCase` (ASCII). -/
def lowerStr (s : List Char) : List Char := s.map lowerCh

/-- `String.prototype.includes`: `hasSub hay needle` is true iff `needle`
occurs contiguously inside `hay`. -/
def hasSub : List Char → List Char → Bool
  | [], needle => needle.isEmpty
  | c :: rest, needle => needle.isPrefixOf (c :: rest) || hasSub rest needle

/-- `String.prototype.trim` (ASCII whitespace). -/
def jsTrim (s : List Char) : List Char :=
  ((s.dropWhile isJsWhitespace).reverse.dropWhile isJsWhitespace).reverse

/-- Decimal digit list to a natural number (`parseInt` on an all-digit
string). -/
def digitsToNat (ds : List Char) : ℕ :=
  ds.foldl (fun n c => n * 10 + (c.toNat - 48)) 0

/-! ### Scoring Calculator (`src/game/scorer.ts`, `calculateReward`) -/

/-- `config.game.baseReward` (`src/config.ts`). -/
def baseReward : ℚ := 100

/-- `config.game.maxStreakBonus` (`src/config.ts`). -/
def maxStreakBonus : ℚ := 2

/-- JS `Math.min` on rationals. -/
def jsMin (a b : ℚ) : ℚ := if a ≤ b then a else b

/-- JS `Math.max` on rationals. -/
def jsMax (a b : ℚ) : ℚ := if a ≤ b then b else a

/-- JS `Math.round`: round half toward positive infinity. -/
def jsRound (q : ℚ) : ℤ := (q + 1/2).floor

/-- `Math.round(x * 100) / 100` — round to 2 decimal places. -/
def round2 (q : ℚ) : ℚ := (jsRound (q * 100) : ℚ) / 100

/-- Return record of `calculateReward`. -/
structure ScoringResult where
  baseReward : ℚ
  confidenceMultiplier : ℚ
  streakBonus : ℚ
  totalReward : ℚ
  newStreak : ℤ
deriving DecidableEq

/-- `calculateReward(confidence, currentStreak)` from `src/game/scorer.ts`,
modelled over exact rationals. -/
def calculateReward (confidence : ℚ) (currentStreak : ℤ) : ScoringResult :=
  let validConfidence := jsMax 1 (jsMin 10 confidence)
  let confidenceMultiplier := validConfidence / 5
  let newStreak := currentStreak + 1
  let streakBonus := jsMin maxStreakBonus (1 + (newStreak : ℚ) * (0.1 : ℚ))
  let totalReward := baseReward * confidenceMultiplier * streakBonus
  { baseReward := baseReward
    confidenceMultiplier := confidenceMultiplier
    streakBonus := streakBonus
    totalReward := round2 totalReward
    newStreak := newStreak }

/-! ### Outcome matcher (`src/game/resolver.ts`, body of `resolveTopic`) -/

/-- The fixed positive-term set of the polarity heuristic. -/
def positiveTerms : List (List Char) :=
  [("yes").toList, ("will").toList, ("true").toList,
   ("happen").toList, ("succeed").toList]

/-- The negative term spelled w-o-n-apostrophe-t in the source. -/
def wontTerm : List Char := ['w', 'o', 'n', aposChar, 't']

/-- The fixed negative-term set of the polarity heuristic. -/
def negativeTerms : List (List Char) :=
  [("no").toList, wontTerm, ("false").toList,
   ("fail").toList, ("not").toList]

/-- The correctness decision taken for each pending prediction inside
`resolveTopic` (`src/game/resolver.ts`): explicit keyword matching when
`matchingOutcomes` is non-empty, otherwise the polarity heuristic. -/
def decideCorrect (predictionText actualOutcome : List Char)
    (matchingOutcomes : List (List Char)) : Bool :=
  let predictionLower := lowerStr predictionText
  let outcomeLower := lowerStr actualOutcome
  if 0 < matchingOutcomes.length then
    matchingOutcomes.any (fun m => hasSub predictionLower (lowerStr m))
  else
    let predictionPositive := positiveTerms.any (fun t => hasSub predictionLower t)
    let predictionNegative := negativeTerms.any (fun t => hasSub predictionLower t)
    let outcomePositive := hasSub outcomeLower (("yes").toList)
      || hasSub outcomeLower (("happened").toList)
      || hasSub outcomeLower (("true").toList)
    if predictionPositive && !predictionNegative then outcomePositive
    else if predictionNegative && !predictionPositive then !outcomePositive
    else false

/-! ### Settlement state machine
(`src/db/sqlite.ts` rows and `resolvePrediction`; `src/game/resolver.ts`
`resolvePrediction`) -/

/-- Prediction lifecycle status (`predictions.status` column:
`pending`, `resolved_correct`, `resolved_wrong`). -/
inductive PredStatus where
  | pending
  | resolvedCorrect
  | resolvedWrong
deriving DecidableEq

/-- The settlement-relevant projection of a `predictions` row. -/
structure Prediction where
  status : PredStatus
  confidence : ℤ
deriving DecidableEq

/-- The settlement-relevant projection of an `agents` row
(`total_predictions`, `correct_predictions`, `current_streak`,
`best_streak`, `total_ort_earned`). -/
structure Agent where
  totalPredictions : ℤ
  correctPredictions : ℤ
  currentStreak : ℤ
  bestStreak : ℤ
  totalOrtEarned : ℚ
deriving DecidableEq

/-- A freshly inserted `agents` row (`getOrCreateAgent`): every counter
takes its schema default `0`. -/
def newAgent : Agent := ⟨0, 0, 0, 0, 0⟩

/-- The agent-side effect of `db.resolvePrediction` (`src/db/sqlite.ts`
lines 146-175).  On `correct`, the single SQL `UPDATE` increments
`correct_predictions`, increments `current_streak` and sets
`best_streak = MAX(best_streak, current_streak + 1)`, all right-hand
sides reading the pre-update row; otherwise it only sets
`current_streak = 0`.  Neither branch touches `total_predictions` or
`total_ort_earned`. -/
def dbResolveAgentUpdate (correct : Bool) (a : Agent) : Agent :=
  if correct then
    { a with
      correctPredictions := a.correctPredictions + 1
      currentStreak := a.currentStreak + 1
      bestStreak := max a.bestStreak (a.currentStreak + 1) }
  else
    { a with currentStreak := 0 }

/-- The prediction-side effect of `db.resolvePrediction`: set the status
to `resolved_correct` or `resolved_wrong`. -/
def dbResolvePredictionRow (correct : Bool) (p : Prediction) : Prediction :=
  { p with status := if correct then PredStatus.resolvedCorrect
                     else PredStatus.resolvedWrong }

/-- Per-prediction settlement result (`ResolutionResult` in
`src/game/resolver.ts`, without the I/O-only `predictionId`,
`agentName`, `txHash` fields). -/
structure ResolutionResult where
  correct : Bool
  reward : ℚ
  newStreak : ℤ
deriving DecidableEq

/-- Errors thrown by `resolvePrediction` in `src/game/resolver.ts`. -/
inductive ResolveError where
  | notFound
  | alreadyResolved
deriving DecidableEq

/-- Outcome of a settlement call: a result or a thrown error. -/
inductive SettleOutcome where
  | ok (r : ResolutionResult)
  | err (e : ResolveError)
deriving DecidableEq

/-- The store state touched by a single-prediction settlement: the
looked-up prediction row (if present) and its owning agent row. -/
structure St where
  pred : Option Prediction
  agent : Agent
deriving DecidableEq

/-- The coordinator `resolvePrediction(predictionId, correct)` of
`src/game/resolver.ts` (lines 186-252), as a state transformer.  It
throws if the prediction is missing or not pending (leaving the store
untouched), computes the reward via `calculateReward` only on the
correct branch, applies `db.resolvePrediction`, and — exactly as in the
source — never executes the `total_ort_earned` update (the source only
builds that SQL string; the statement is never run). -/
def resolvePredictionOp (st : St) (correct : Bool) : SettleOutcome × St :=
  match st.pred with
  | none => (SettleOutcome.err ResolveError.notFound, st)
  | some p =>
    if p.status ≠ PredStatus.pending then
      (SettleOutcome.err ResolveError.alreadyResolved, st)
    else
      let agent := st.agent
      let rn : ℚ × ℤ :=
        if correct then
          let scoring := calculateReward (p.confidence : ℚ) agent.currentStreak
          (scoring.totalReward, scoring.newStreak)
        else (0, 0)
      let st2 : St :=
        { pred := some (dbResolvePredictionRow correct p)
          agent := dbResolveAgentUpdate correct agent }
      (SettleOutcome.ok ⟨correct, rn.1, rn.2⟩, st2)

/-- Reachable agent rows: a row inserted by `getOrCreateAgent` followed
by any sequence of settlement updates. -/
inductive ReachableAgent : Agent → Prop
  | created : ReachableAgent newAgent
  | settle (correct : Bool) {a : Agent} :
      ReachableAgent a → ReachableAgent (dbResolveAgentUpdate correct a)

/-! ### Calendar arithmetic (JS `Date` normalization)

JS `Date` setters (`setDate`, `setMonth`, `setFullYear`) normalize
out-of-range fields through the proleptic Gregorian calendar.  We model
a date at day granularity as year / 0-based month / 1-based day-of-month
(the time-of-day component plays no role in any claim). -/

/-- A JS `Date` at day granularity.  `month` is 0-based as in
`getMonth`. -/
structure JsDate where
  year : ℤ
  month : ℤ
  day : ℤ
deriving DecidableEq

/-- Day count since 1970-01-01 of year `y`, 1-based month `m ∈ [1,12]`,
day-of-month `d` (which may lie outside its calendar range; the count is
linear in `d`, matching JS `MakeDay`). -/
def daysFromCivil (y m d : ℤ) : ℤ :=
  let y2 := if m ≤ 2 then y - 1 else y
  let era := y2.fdiv 400
  let yoe := y2 - era * 400
  let mp := if 2 < m then m - 3 else m + 9
  let doy := (153 * mp + 2).fdiv 5 + d - 1
  let doe := yoe * 365 + yoe.fdiv 4 - yoe.fdiv 100 + doy
  era * 146097 + doe - 719468

/-- Inverse of `daysFromCivil`: the normalized calendar date of a day
count since 1970-01-01. -/
def civilFromDays (z0 : ℤ) : JsDate :=
  let z := z0 + 719468
  let era := z.fdiv 146097
  let doe := z - era * 146097
  let yoe := (doe - doe.fdiv 1460 + doe.fdiv 36524 - doe.fdiv 146096).fdiv 365
  let y := yoe + era * 400
  let doy := doe - (365 * yoe + yoe.fdiv 4 - yoe.fdiv 100)
  let mp := (5 * doy + 2).fdiv 153
  let d := doy - (153 * mp + 2).fdiv 5 + 1
  let m := if mp < 10 then mp + 3 else mp - 9
  ⟨if m ≤ 2 then y + 1 else y, m - 1, d⟩

/-- JS date construction with field normalization: months overflow into
years, days overflow through the calendar. -/
def jsMakeDate (y m d : ℤ) : JsDate :=
  civilFromDays (daysFromCivil (y + m.fdiv 12) (m.emod 12 + 1) d)

/-- `date.setDate(date.getDate() + n)`. -/
def setDateAdd (dt : JsDate) (n : ℤ) : JsDate :=
  jsMakeDate dt.year dt.month (dt.day + n)

/-- `date.setMonth(m, d)`. -/
def setMonthDay (dt : JsDate) (m d : ℤ) : JsDate :=
  jsMakeDate dt.year m d

/-- `date.setMonth(m)` (day-of-month kept). -/
def setMonthOnly (dt : JsDate) (m : ℤ) : JsDate :=
  jsMakeDate dt.year m dt.day

/-- `date.setFullYear(date.getFullYear() + n)`. -/
def setFullYearAdd (dt : JsDate) (n : ℤ) : JsDate :=
  jsMakeDate (dt.year + n) dt.month dt.day

/-! ### Regex scanning primitives

Each regex of `src/moltbook/parser.ts` is modelled as a matcher tried at
a single start position, lifted over all start positions left to right
(`String.prototype.match` without the `g` flag returns the leftmost
match).  One corner of the regex engine is not modelled: backtracking of
a greedy `\s*`/`\s+` into a whitespace-only tail, which can produce a
capture consisting only of whitespace; no theorem below evaluates the
parser on such an input. -/

/-- Case-insensitive literal/character-class head match:
`ciStartsWith pat s` holds when the lowercase pattern `pat` matches a
prefix of `s` up to ASCII case. -/
def ciStartsWith : List Char → List Char → Bool
  | [], _ => true
  | _ :: _, [] => false
  | p :: ps, t :: ts => (p = lowerCh t) && ciStartsWith ps ts

/-- Try a single-position matcher at every start position, left to
right, returning the first success (leftmost-match rule). -/
def scanFor {α : Type} (f : List Char → Option α) : List Char → Option α
  | [] => f []
  | c :: rest =>
    match f (c :: rest) with
    | some r => some r
    | none => scanFor f rest

/-! ### Forecast extractor (`src/moltbook/parser.ts`) -/

/-- The claim-line label `PREDICTION:` (lowercased). -/
def predictionLabel : List Char := ("prediction:").toList

/-- The keyword `will` (lowercased). -/
def willWord : List Char := ("will").toList

/-- `/PREDICTION:\s*(.+?)(?:\n|$)/i` at one position: the label, then
whitespace, then a non-empty capture running to the next line break. -/
def predictionLineAt (s : List Char) : Option (List Char) :=
  if ciStartsWith predictionLabel s then
    let rest := s.drop 11
    let cap := (rest.dropWhile isJsWhitespace).takeWhile (fun c => c ≠ nlChar)
    if cap.isEmpty then none else some cap
  else none

/-- `/CONFIDENCE:\s*(\d+)/i` at one position. -/
def confidenceAt (s : List Char) : Option ℕ :=
  if ciStartsWith (("confidence:").toList) s then
    let rest := (s.drop 11).dropWhile isJsWhitespace
    let ds := rest.takeWhile isDigitCh
    if ds.isEmpty then none else some (digitsToNat ds)
  else none

/-- The ordered alternation `tech|crypto|ai|world|science|other`. -/
def categoryAlternatives : List (List Char) :=
  [("tech").toList, ("crypto").toList, ("ai").toList,
   ("world").toList, ("science").toList, ("other").toList]

/-- `/CATEGORY:\s*(tech|crypto|ai|world|science|other)/i` at one
position; the capture is returned lowercased as in the source. -/
def categoryAt (s : List Char) : Option (List Char) :=
  if ciStartsWith (("category:").toList) s then
    let rest := (s.drop 9).dropWhile isJsWhitespace
    categoryAlternatives.find? (fun alt => ciStartsWith alt rest)
  else none

/-- Does `l` start with `\s+by` (case-insensitively)?  Used as the lazy
stop condition of the outcome regex. -/
def wsThenBy (l : List Char) : Bool :=
  let l2 := l.dropWhile isJsWhitespace
  decide (l2.length < l.length) && ciStartsWith (("by").toList) l2

/-- Grow the lazy capture `(.+?)` until `(?:\s+by|$)` matches. -/
def capLoop : List Char → List Char
  | [] => []
  | c :: rest => if wsThenBy (c :: rest) then [] else c :: capLoop rest

/-- `/will\s+(.+?)(?:\s+by|$)/i` at one position. -/
def willOutcomeAt (s : List Char) : Option (List Char) :=
  if ciStartsWith willWord s then
    let rest := s.drop 4
    let rest2 := rest.dropWhile isJsWhitespace
    if rest2.length = rest.length then none
    else
      match rest2 with
      | [] => none
      | c :: t => some (c :: capLoop t)
  else none

/-- Deadline pattern 1, `/by\s+(\w+\s+\d{4})/i`, at one position.  The
capture is the word, the matched whitespace and the four digits. -/
def byMonthYearAt (s : List Char) : Option (List Char) :=
  if ciStartsWith (("by").toList) s then
    let rest := s.drop 2
    let rest2 := rest.dropWhile isJsWhitespace
    if rest2.length = rest.length then none
    else
      let w := rest2.takeWhile isWordCh
      if w.isEmpty then none
      else
        let rest3 := rest2.drop w.length
        let rest4 := rest3.dropWhile isJsWhitespace
        if rest4.length = rest3.length then none
        else
          let ds := rest4.takeWhile isDigitCh
          if ds.length < 4 then none
          else some (w ++ rest3.take (rest3.length - rest4.length) ++ rest4.take 4)
  else none

/-- Deadline pattern 2, `/by\s+(\d{1,2}\/\d{1,2}\/\d{4})/i`, at one
position. -/
def bySlashDateAt (s : List Char) : Option (List Char) :=
  if ciStartsWith (("by").toList) s then
    let rest := s.drop 2
    let rest2 := rest.dropWhile isJsWhitespace
    if rest2.length = rest.length then none
    else
      let d1 := rest2.takeWhile isDigitCh
      if d1.isEmpty || 2 < d1.length then none
      else
        match rest2.drop d1.length with
        | '/' :: r3 =>
          let d2 := r3.takeWhile isDigitCh
          if d2.isEmpty || 2 < d2.length then none
          else
            match r3.drop d2.length with
            | '/' :: r4 =>
              let d3 := r4.takeWhile isDigitCh
              if d3.length < 4 then none
              else some (d1 ++ '/' :: d2 ++ '/' :: d3.take 4)
            | _ => none
        | _ => none
  else none

/-- Deadline pattern 3, `/by\s+(end of \w+)/i`, at one position. -/
def byEndOfAt (s : List Char) : Option (List Char) :=
  if ciStartsWith (("by").toList) s then
    let rest := s.drop 2
    let rest2 := rest.dropWhile isJsWhitespace
    if rest2.length = rest.length then none
    else
      if ciStartsWith (("end of ").toList) rest2 then
        let w := (rest2.drop 7).takeWhile isWordCh
        if w.isEmpty then none else some (rest2.take 7 ++ w)
      else none
  else none

/-- Deadline pattern 4, `/within\s+(\d+\s+\w+)/i`, at one position.
Note that the capture group starts after the word `within`. -/
def withinAt (s : List Char) : Option (List Char) :=
  if ciStartsWith (("within").toList) s then
    let rest := s.drop 6
    let rest2 := rest.dropWhile isJsWhitespace
    if rest2.length = rest.length then none
    else
      let ds := rest2.takeWhile isDigitCh
      if ds.isEmpty then none
      else
        let rest3 := rest2.drop ds.length
        let rest4 := rest3.dropWhile isJsWhitespace
        if rest4.length = rest3.length then none
        else
          let w := rest4.takeWhile isWordCh
          if w.isEmpty then none
          else some (ds ++ rest3.take (rest3.length - rest4.length) ++ w)
  else none

/-- Units of the relative-date regex `/(\d+)\s+(day|week|month|year)s?/`. -/
inductive TimeUnit where
  | day
  | week
  | month
  | year
deriving DecidableEq

/-- The ordered alternation `day|week|month|year`. -/
def unitAlternatives : List (List Char × TimeUnit) :=
  [(("day").toList, TimeUnit.day), (("week").toList, TimeUnit.week),
   (("month").toList, TimeUnit.month), (("year").toList, TimeUnit.year)]

/-- `/(\d+)\s+(day|week|month|year)s?/` at one position (the input is
already lowercased by `parseDateString`). -/
def amountUnitAt (s : List Char) : Option (ℕ × TimeUnit) :=
  let ds := s.takeWhile isDigitCh
  if ds.isEmpty then none
  else
    let rest := s.drop ds.length
    let rest2 := rest.dropWhile isJsWhitespace
    if rest2.length = rest.length then none
    else
      match unitAlternatives.find? (fun pu => pu.1.isPrefixOf rest2) with
      | some pu => some (digitsToNat ds, pu.2)
      | none => none

/-- Apply one relative-date branch of the `switch` in
`parseDateString`. -/
def applyUnit (now : JsDate) (amount : ℕ) : TimeUnit → JsDate
  | TimeUnit.day => setDateAdd now amount
  | TimeUnit.week => setDateAdd now (amount * 7)
  | TimeUnit.month => setMonthOnly now (now.month + amount)
  | TimeUnit.year => setFullYearAdd now amount

/-- The keyword `within` (lowercased). -/
def withinWord : List Char := ("within").toList

/-- The keyword `end of` (lowercased). -/
def endOfWord : List Char := ("end of").toList

/-- The `end of X` branch: Dec 31 for `year`, day 0 of the next month
for `month`, day 0 of the month after the current quarter for `quarter`,
and the unchanged clock reading otherwise (the source returns `date`
untouched when none of the three keywords occurs). -/
def endOfDate (normalizedStr : List Char) (now : JsDate) : JsDate :=
  if hasSub normalizedStr (("year").toList) then setMonthDay now 11 31
  else if hasSub normalizedStr (("month").toList) then
    setMonthDay now (now.month + 1) 0
  else if hasSub normalizedStr (("quarter").toList) then
    setMonthDay now (3 * (now.month.fdiv 3 + 1)) 0
  else now

/-- Month keyword table of the V8 date parser: an alphabetic token is
recognized as a month through its first three letters. -/
def monthAbbrs : List (List Char × ℤ) :=
  [(("jan").toList, 0), (("feb").toList, 1), (("mar").toList, 2),
   (("apr").toList, 3), (("may").toList, 4), (("jun").toList, 5),
   (("jul").toList, 6), (("aug").toList, 7), (("sep").toList, 8),
   (("oct").toList, 9), (("nov").toList, 10), (("dec").toList, 11)]

/-- `new Date(dateStr)` restricted to the shapes the deadline patterns
can feed it: `M/D/YYYY` slash dates and `<month name> <4-digit year>`
(V8 recognizes a month token by its first three letters and parses
`"March 2026"` as the first of the month).  Every other string is
modelled as an invalid date (`none`), which the source turns into a
thrown parse error. -/
def jsNewDate (s : List Char) : Option JsDate :=
  let t := jsTrim s
  let d1 := t.takeWhile isDigitCh
  if 0 < d1.length ∧ d1.length ≤ 2 then
    match t.drop d1.length with
    | '/' :: r2 =>
      let d2 := r2.takeWhile isDigitCh
      if 0 < d2.length ∧ d2.length ≤ 2 then
        match r2.drop d2.length with
        | '/' :: r3 =>
          let d3 := r3.takeWhile isDigitCh
          if d3.length = 4 ∧ r3.drop 4 = [] then
            let m := (digitsToNat d1 : ℤ)
            let d := (digitsToNat d2 : ℤ)
            if 1 ≤ m ∧ m ≤ 12 ∧ 1 ≤ d ∧ d ≤ 31 then
              some (jsMakeDate (digitsToNat d3) (m - 1) d)
            else none
          else none
        | _ => none
      else none
    | _ => none
  else
    let letters := t.takeWhile isAlphaCh
    if letters.length < 3 then none
    else
      match monthAbbrs.find? (fun pm => pm.1 = (lowerStr letters).take 3) with
      | none => none
      | some pm =>
        let rest := t.drop letters.length
        let rest2 := rest.dropWhile isJsWhitespace
        if rest2.length = rest.length ∧ rest ≠ [] then none
        else
          let ds := rest2.takeWhile isDigitCh
          if ds.length = 4 ∧ rest2.drop 4 = [] then
            some (jsMakeDate (digitsToNat ds) pm.2 1)
          else none

/-- `parseDateString(dateStr)` of `src/moltbook/parser.ts` (lines
220-262).  The source reads the wall clock internally via `new Date()`;
the parameter `now` stands for that internal clock reading.  `none`
models the thrown `Could not parse date` error.  Control flow follows
the source: a `within` string whose inner relative-date regex fails
falls through to the `end of` check and then to `new Date(dateStr)`. -/
def parseDateString (dateStr : List Char) (now : JsDate) : Option JsDate :=
  let normalizedStr := lowerStr (jsTrim dateStr)
  let withinResult : Option JsDate :=
    if hasSub normalizedStr withinWord then
      (scanFor amountUnitAt normalizedStr).map
        (fun au => applyUnit now au.1 au.2)
    else none
  match withinResult with
  | some d => some d
  | none =>
    if hasSub normalizedStr endOfWord then
      some (endOfDate normalizedStr now)
    else jsNewDate dateStr

/-- The deadline-pattern loop of `parsePrediction`: each pattern's
leftmost match, in source order, the first successfully parsed capture
winning; a pattern whose capture fails to parse is skipped
(`try`/`catch` continues with the next pattern). -/
def tryDeadlines (now : JsDate) : List (Option (List Char)) → Option JsDate
  | [] => none
  | none :: rest => tryDeadlines now rest
  | some cap :: rest =>
    match parseDateString cap now with
    | some d => some d
    | none => tryDeadlines now rest

/-- The deadline extracted from the prediction text.  The source order
of `deadlinePatterns` is: `by <Month Year>`, `by M/D/YYYY`,
`by end of X`, `within N units`. -/
def findDeadline (text : List Char) (now : JsDate) : Option JsDate :=
  tryDeadlines now
    [scanFor byMonthYearAt text, scanFor bySlashDateAt text,
     scanFor byEndOfAt text, scanFor withinAt text]

/-- `ParsedPrediction` of `src/moltbook/parser.ts`. -/
structure ParsedPrediction where
  prediction : List Char
  outcome : List Char
  deadline : Option JsDate
  confidence : ℕ
  category : List Char
  raw : List Char
deriving DecidableEq

/-- `parsePrediction(comment)` of `src/moltbook/parser.ts` (lines
163-215) on the comment content; `now` stands for the wall clock read
internally by `parseDateString`. -/
def parsePrediction (content : List Char) (now : JsDate) :
    Option ParsedPrediction :=
  match scanFor predictionLineAt content with
  | none => none
  | some cap =>
    let predictionText := jsTrim cap
    let confidence :=
      match scanFor confidenceAt content with
      | some n => min 10 (max 1 n)
      | none => 5
    let category := (scanFor categoryAt content).getD (("other").toList)
    let deadline := findDeadline predictionText now
    let outcome :=
      match scanFor willOutcomeAt predictionText with
      | some o => jsTrim o
      | none => predictionText
    some ⟨predictionText, outcome, deadline, confidence, category, content⟩

/-! ### Helper lemmas -/

/-- Integer `max` as the conditional used by the SQL `MAX`. -/
theorem int_max_ite (b c : ℤ) : max b c = if b < c then c else b := by
  rcases lt_or_ge b c with h | h
  · simp [max_eq_right h.le, h]
  · simp [max_eq_left h, not_lt.mpr h]

/-- Unfolding `lowerStr` over a cons cell. -/
theorem lowerStr_cons (c : Char) (rest : List Char) :
    lowerStr (c :: rest) = lowerCh c :: lowerStr rest := rfl

/-- A case-insensitive head match gives a prefix of the lowercased
string. -/
theorem ciStartsWith_isPrefixOf :
    ∀ (pat s : List Char), ciStartsWith pat s = true →
      pat.isPrefixOf (lowerStr s) = true := by
  intro pat
  induction pat with
  | nil => intro s _; simp [List.isPrefixOf]
  | cons p ps ih =>
    intro s h
    cases s with
    | nil => simp [ciStartsWith] at h
    | cons t ts =>
      simp only [ciStartsWith, Bool.and_eq_true, decide_eq_true_eq] at h
      simp only [lowerStr_cons, List.isPrefixOf, Bool.and_eq_true, beq_iff_eq]
      exact ⟨h.1, ih ts h.2⟩

/-- A prefix occurrence is a substring occurrence. -/
theorem hasSub_of_isPrefixOf (hay needle : List Char)
    (h : needle.isPrefixOf hay = true) : hasSub hay needle = true := by
  cases hay with
  | nil =>
    cases needle with
    | nil => rfl
    | cons n ns => simp [List.isPrefixOf] at h
  | cons c rest => simp [hasSub, h]

/-- Substring occurrences survive extending the haystack on the left. -/
theorem hasSub_cons (c : Char) (rest needle : List Char)
    (h : hasSub rest needle = true) : hasSub (c :: rest) needle = true := by
  simp [hasSub, h]

/-- If a position matcher only fires where the lowercase pattern `pat`
heads the remaining text, then a successful scan implies `pat` occurs in
the lowercased input. -/
theorem scanFor_hasSub {α : Type} (f : List Char → Option α) (pat : List Char)
    (hf : ∀ s, (f s).isSome = true → ciStartsWith pat s = true) :
    ∀ content, (scanFor f content).isSome = true →
      hasSub (lowerStr content) pat = true := by
  intro content
  induction content with
  | nil =>
    intro h
    have h2 := hf [] (by simpa [scanFor] using h)
    exact hasSub_of_isPrefixOf _ _ (ciStartsWith_isPrefixOf pat [] h2)
  | cons c rest ih =>
    intro h
    rw [scanFor] at h
    cases hfc : f (c :: rest) with
    | some r =>
      have h2 := hf (c :: rest) (by simp [hfc])
      exact hasSub_of_isPrefixOf _ _ (ciStartsWith_isPrefixOf pat (c :: rest) h2)
    | none =>
      rw [hfc] at h
      rw [lowerStr_cons]
      exact hasSub_cons _ _ _ (ih h)

/-- `jsMin` agrees with the order-theoretic minimum. -/
theorem jsMin_eq (a b : ℚ) : jsMin a b = min a b := by
  rw [jsMin, min_def]

/-- `jsMax` agrees with the order-theoretic maximum. -/
theorem jsMax_eq (a b : ℚ) : jsMax a b = max a b := by
  rw [jsMax, max_def]

/-- `jsRound` is round-half-up. -/
theorem jsRound_eq (q : ℚ) : jsRound q = ⌊q + 1/2⌋ := by
  rw [jsRound, Rat.floor_def', Rat.floor_def]

/-- `predictionLineAt` fires only at an occurrence of the label. -/
theorem predictionLineAt_startsWith (s : List Char) :
    (predictionLineAt s).isSome = true →
      ciStartsWith predictionLabel s = true := by
  intro h
  rw [predictionLineAt] at h
  by_cases hc : ciStartsWith predictionLabel s
  · exact hc
  · simp [hc] at h

/-- `willOutcomeAt` fires only at an occurrence of `will`. -/
theorem willOutcomeAt_startsWith (s : List Char) :
    (willOutcomeAt s).isSome = true →
      ciStartsWith willWord s = true := by
  intro h
  rw [willOutcomeAt] at h
  by_cases hc : ciStartsWith willWord s
  · exact hc
  · simp [hc] at h

/-! ### Claim theorems -/

/-- Claim C1 (code bug): the settlement of a pending forecast is claimed
to increment the owning agent's `total_predictions` on both branches and
to add the computed reward to `total_ort_earned` on the correct branch.
The code does neither: evaluated at a pending prediction with
confidence 8 owned by an agent with streak 2 and all-zero totals, the
correct settlement reports reward 208 yet leaves `total_predictions = 0`
and `total_ort_earned = 0`, and the incorrect settlement also leaves
`total_predictions = 0`. -/
theorem settleForecast_counters_code_bug :
    (resolvePredictionOp ⟨some ⟨PredStatus.pending, 8⟩, ⟨0, 0, 2, 2, 0⟩⟩ true =
      (SettleOutcome.ok ⟨true, 208, 3⟩,
       ⟨some ⟨PredStatus.resolvedCorrect, 8⟩, ⟨0, 1, 3, 3, 0⟩⟩))
    ∧ (resolvePredictionOp ⟨some ⟨PredStatus.pending, 8⟩, ⟨0, 0, 2, 2, 0⟩⟩ false =
      (SettleOutcome.ok ⟨false, 0, 0⟩,
       ⟨some ⟨PredStatus.resolvedWrong, 8⟩, ⟨0, 0, 0, 2, 0⟩⟩)) := by
  refine ⟨?_, ?_⟩
  · simp [resolvePredictionOp, dbResolveAgentUpdate, dbResolvePredictionRow,
      int_max_ite]
    norm_num [calculateReward, round2, jsRound_eq, jsMin, jsMax,
      baseReward, maxStreakBonus]
  · simp [resolvePredictionOp, dbResolveAgentUpdate, dbResolvePredictionRow,
      int_max_ite]

/-- Claim C2: settling a pending forecast as correct sets the owning
agent's current streak to its prior value plus one and raises the best
streak to the new streak exactly when the new streak exceeds it; an
incorrect settlement sets the current streak to exactly 0. -/
theorem settleForecast_streak_update (st : St) (p : Prediction)
    (hp : st.pred = some p) (hpend : p.status = PredStatus.pending) :
    ((resolvePredictionOp st true).2.agent.currentStreak
        = st.agent.currentStreak + 1
      ∧ (resolvePredictionOp st true).2.agent.bestStreak =
          (if st.agent.bestStreak < st.agent.currentStreak + 1
           then st.agent.currentStreak + 1 else st.agent.bestStreak))
    ∧ (resolvePredictionOp st false).2.agent.currentStreak = 0 := by
  obtain ⟨pd, ag⟩ := st
  change pd = some p at hp
  subst hp
  simp [resolvePredictionOp, hpend, dbResolveAgentUpdate, int_max_ite]

/-- Witness for C2 at a concrete pending prediction. -/
theorem settleForecast_streak_update_witness :
    (⟨some ⟨PredStatus.pending, 7⟩, ⟨3, 2, 1, 5, 10⟩⟩ : St).pred
        = some ⟨PredStatus.pending, 7⟩
    ∧ (⟨PredStatus.pending, 7⟩ : Prediction).status = PredStatus.pending
    ∧ (((resolvePredictionOp ⟨some ⟨PredStatus.pending, 7⟩, ⟨3, 2, 1, 5, 10⟩⟩ true).2.agent.currentStreak
          = (⟨some ⟨PredStatus.pending, 7⟩, ⟨3, 2, 1, 5, 10⟩⟩ : St).agent.currentStreak + 1
        ∧ (resolvePredictionOp ⟨some ⟨PredStatus.pending, 7⟩, ⟨3, 2, 1, 5, 10⟩⟩ true).2.agent.bestStreak =
            (if (⟨some ⟨PredStatus.pending, 7⟩, ⟨3, 2, 1, 5, 10⟩⟩ : St).agent.bestStreak
                < (⟨some ⟨PredStatus.pending, 7⟩, ⟨3, 2, 1, 5, 10⟩⟩ : St).agent.currentStreak + 1
             then (⟨some ⟨PredStatus.pending, 7⟩, ⟨3, 2, 1, 5, 10⟩⟩ : St).agent.currentStreak + 1
             else (⟨some ⟨PredStatus.pending, 7⟩, ⟨3, 2, 1, 5, 10⟩⟩ : St).agent.bestStreak))
       ∧ (resolvePredictionOp ⟨some ⟨PredStatus.pending, 7⟩, ⟨3, 2, 1, 5, 10⟩⟩ false).2.agent.currentStreak = 0) :=
  ⟨rfl, rfl, settleForecast_streak_update _ _ rfl rfl⟩

/-- Claim C3: `calculateReward` is total and computes the clamped
confidence multiplier, the incremented streak, the capped streak
multiplier and the half-up-rounded reward; on confidence 8 and streak 2
it yields multiplier 1.6, new streak 3, streak multiplier 1.3 and reward
exactly 208, and on confidence 10 and streak 20 the streak multiplier is
capped at exactly 2. -/
theorem calculateReward_spec (c : ℚ) (s : ℤ) (_hs : 0 ≤ s) :
    (calculateReward c s).confidenceMultiplier = max 1 (min 10 c) / 5
    ∧ (calculateReward c s).newStreak = s + 1
    ∧ (calculateReward c s).streakBonus
        = min 2 (1 + ((s + 1 : ℤ) : ℚ) * (0.1 : ℚ))
    ∧ (calculateReward c s).totalReward =
        ((⌊(100 * (max 1 (min 10 c) / 5)
            * min 2 (1 + ((s + 1 : ℤ) : ℚ) * (0.1 : ℚ))) * 100 + 1/2⌋ : ℤ) : ℚ) / 100
    ∧ (calculateReward 8 2).confidenceMultiplier = 8/5
    ∧ (calculateReward 8 2).newStreak = 3
    ∧ (calculateReward 8 2).streakBonus = 13/10
    ∧ (calculateReward 8 2).totalReward = 208
    ∧ (calculateReward 10 20).streakBonus = 2 := by
  refine ⟨?_, rfl, ?_, ?_, ?_, by decide, ?_, ?_, ?_⟩
  · simp [calculateReward, jsMax_eq, jsMin_eq]
  · simp [calculateReward, jsMin_eq, maxStreakBonus]
  · simp [calculateReward, round2, jsRound_eq, jsMax_eq, jsMin_eq,
      baseReward, maxStreakBonus]
  · norm_num [calculateReward, jsMin, jsMax]
  · norm_num [calculateReward, jsMin, maxStreakBonus]
  · norm_num [calculateReward, round2, jsRound_eq, jsMin, jsMax,
      baseReward, maxStreakBonus]
  · norm_num [calculateReward, jsMin, maxStreakBonus]

/-- Witness for C3 at confidence 8, streak 2. -/
theorem calculateReward_spec_witness :
    (0 : ℤ) ≤ 2 ∧ (calculateReward 8 2).newStreak = 2 + 1 :=
  ⟨by decide, (calculateReward_spec 8 2 (by decide)).2.1⟩

/-- Claim C4: settling a forecast whose status is not `pending` throws
`AlreadyResolvedError` and leaves the whole store state — the forecast
row and every agent counter — unchanged. -/
theorem settleForecast_already_resolved (st : St) (correct : Bool)
    (p : Prediction) (hp : st.pred = some p)
    (h : p.status ≠ PredStatus.pending) :
    resolvePredictionOp st correct
      = (SettleOutcome.err ResolveError.alreadyResolved, st) := by
  obtain ⟨pd, ag⟩ := st
  change pd = some p at hp
  subst hp
  simp [resolvePredictionOp, h]

/-- Witness for C4 at a concrete already-settled prediction. -/
theorem settleForecast_already_resolved_witness :
    (⟨some ⟨PredStatus.resolvedCorrect, 5⟩, ⟨1, 1, 1, 1, 10⟩⟩ : St).pred
        = some ⟨PredStatus.resolvedCorrect, 5⟩
    ∧ (⟨PredStatus.resolvedCorrect, 5⟩ : Prediction).status ≠ PredStatus.pending
    ∧ resolvePredictionOp ⟨some ⟨PredStatus.resolvedCorrect, 5⟩, ⟨1, 1, 1, 1, 10⟩⟩ true
        = (SettleOutcome.err ResolveError.alreadyResolved,
           ⟨some ⟨PredStatus.resolvedCorrect, 5⟩, ⟨1, 1, 1, 1, 10⟩⟩) :=
  ⟨rfl, by decide, settleForecast_already_resolved _ _ _ rfl (by decide)⟩

/-- Claim C7: with no explicit match terms, the matcher classifies the
forecast as positive iff it contains a positive term and no negative
term (case-folded), classifies the outcome as positive iff it contains
`yes`, `happened` or `true`, judges positive forecasts by the outcome's
polarity, negative forecasts by its negation, and every ambiguous
forecast incorrect; the three documented examples evaluate to `true`,
`false`, `false`. -/
theorem outcome_matcher_polarity :
    (∀ frag out, decideCorrect frag out [] =
      (let fragLower := lowerStr frag
       let outLower := lowerStr out
       let fragPositive :=
         [("yes").toList, ("will").toList, ("true").toList,
          ("happen").toList, ("succeed").toList].any
           (fun t => hasSub fragLower t)
       let fragNegative :=
         [("no").toList, wontTerm, ("false").toList,
          ("fail").toList, ("not").toList].any
           (fun t => hasSub fragLower t)
       let outPositive := hasSub outLower (("yes").toList)
         || hasSub outLower (("happened").toList)
         || hasSub outLower (("true").toList)
       if fragPositive && !fragNegative then outPositive
       else if fragNegative && !fragPositive then !outPositive
       else false))
    ∧ decideCorrect (("Bitcoin will reach $100k").toList)
        (("Yes, it happened").toList) [] = true
    ∧ decideCorrect (("Bitcoin will reach $100k").toList)
        (("No, it did not happen").toList) [] = false
    ∧ decideCorrect ((("ambiguous forecast with will and won").toList)
        ++ aposChar :: ("t").toList) (("Yes").toList) [] = false :=
  ⟨fun _ _ => rfl, by decide, by decide, by decide⟩

/-- Claim C9: every reachable agent row satisfies
`current_streak ≤ best_streak`; no settlement update decreases
`best_streak`; a fresh row has both streak counters 0; a correct
settlement raises the best streak exactly when exceeded and an incorrect
settlement zeroes the current streak leaving the best streak
unchanged. -/
theorem agent_best_streak_invariant :
    (∀ a, ReachableAgent a → a.currentStreak ≤ a.bestStreak)
    ∧ (∀ (correct : Bool) (a : Agent),
        a.bestStreak ≤ (dbResolveAgentUpdate correct a).bestStreak)
    ∧ newAgent.currentStreak = 0 ∧ newAgent.bestStreak = 0
    ∧ (∀ a, (dbResolveAgentUpdate true a).bestStreak =
        if a.bestStreak < a.currentStreak + 1
        then a.currentStreak + 1 else a.bestStreak)
    ∧ (∀ a, (dbResolveAgentUpdate false a).currentStreak = 0
        ∧ (dbResolveAgentUpdate false a).bestStreak = a.bestStreak) := by
  have inv : ∀ a, ReachableAgent a →
      0 ≤ a.bestStreak ∧ a.currentStreak ≤ a.bestStreak := by
    intro a h
    induction h with
    | created => exact ⟨le_refl 0, le_refl 0⟩
    | settle correct h ih =>
      cases correct with
      | true =>
        refine ⟨le_trans ih.1 (le_max_left _ _), ?_⟩
        exact le_max_right _ _
      | false => exact ⟨ih.1, ih.1⟩
  refine ⟨fun a h => (inv a h).2, ?_, rfl, rfl, ?_, ?_⟩
  · intro correct a
    cases correct with
    | true => exact le_max_left _ _
    | false => exact le_refl _
  · intro a
    simp [dbResolveAgentUpdate, int_max_ite]
  · intro a
    exact ⟨rfl, rfl⟩

/-- Witness for C9 at a concrete reachable agent (created, one correct
settlement, one incorrect settlement). -/
theorem agent_best_streak_invariant_witness :
    ReachableAgent (dbResolveAgentUpdate false (dbResolveAgentUpdate true newAgent))
    ∧ (dbResolveAgentUpdate false (dbResolveAgentUpdate true newAgent)).currentStreak
        ≤ (dbResolveAgentUpdate false (dbResolveAgentUpdate true newAgent)).bestStreak :=
  ⟨ReachableAgent.settle false (ReachableAgent.settle true ReachableAgent.created),
   agent_best_streak_invariant.1 _
     (ReachableAgent.settle false (ReachableAgent.settle true ReachableAgent.created))⟩

/-- Claim C10: with a non-empty explicit term list, the matcher's
verdict does not depend on the actual outcome text at all — it only
tests whether the case-folded forecast fragment contains one of the
terms. -/
theorem explicit_terms_outcome_independent :
    (∀ (frag : List Char) (terms : List (List Char)) (out1 out2 : List Char),
        terms ≠ [] →
        decideCorrect frag out1 terms = decideCorrect frag out2 terms)
    ∧ (∀ (frag : List Char) (terms : List (List Char)) (out : List Char),
        terms ≠ [] →
        decideCorrect frag out terms
          = terms.any (fun m => hasSub (lowerStr frag) (lowerStr m))) := by
  constructor
  · intro frag terms out1 out2 ht
    cases terms with
    | nil => exact absurd rfl ht
    | cons a as => simp [decideCorrect]
  · intro frag terms out ht
    cases terms with
    | nil => exact absurd rfl ht
    | cons a as => simp [decideCorrect]

/-- Witness for C10 with one explicit term and two different outcome
texts. -/
theorem explicit_terms_outcome_independent_witness :
    ([("up").toList] ≠ ([] : List (List Char)))
    ∧ decideCorrect (("BTC up today").toList) (("abc").toList) [("up").toList]
        = decideCorrect (("BTC up today").toList) (("xyz").toList) [("up").toList] :=
  ⟨by decide, explicit_terms_outcome_independent.1 _ _ _ _ (by decide)⟩

/-- Claim C8: a raw comment without the case-insensitive `PREDICTION:`
label parses to `none` (no forecast, not an error); when the word `will`
does not occur in the claim line the outcome fragment equals the full
claim text; the documented scenario parses to confidence 9, category
`crypto`, outcome fragment `flip BTC` and Dec 31 of the clock's current
year. -/
theorem parsePrediction_extraction :
    (∀ (content : List Char) (now : JsDate),
        hasSub (lowerStr content) predictionLabel = false →
        parsePrediction content now = none)
    ∧ (∀ (content : List Char) (now : JsDate) (r : ParsedPrediction),
        parsePrediction content now = some r →
        hasSub (lowerStr r.prediction) willWord = false →
        r.outcome = r.prediction)
    ∧ parsePrediction
        (("PREDICTION: ETH will flip BTC by end of year\nCONFIDENCE: 9\nCATEGORY: crypto").toList)
        ⟨2026, 5, 15⟩
      = some ⟨("ETH will flip BTC by end of year").toList, ("flip BTC").toList,
              some ⟨2026, 11, 31⟩, 9, ("crypto").toList,
              ("PREDICTION: ETH will flip BTC by end of year\nCONFIDENCE: 9\nCATEGORY: crypto").toList⟩ := by
  refine ⟨?_, ?_, by decide⟩
  · intro content now h
    cases hscan : scanFor predictionLineAt content with
    | none => simp [parsePrediction, hscan]
    | some cap =>
      have hsub : hasSub (lowerStr content) predictionLabel = true :=
        scanFor_hasSub predictionLineAt predictionLabel
          predictionLineAt_startsWith content (by simp [hscan])
      rw [h] at hsub
      exact absurd hsub (by simp)
  · intro content now r hr hw
    rw [parsePrediction] at hr
    cases hscan : scanFor predictionLineAt content with
    | none => rw [hscan] at hr; exact absurd hr (by simp)
    | some cap =>
      rw [hscan] at hr
      have hr2 := Option.some.inj hr
      subst hr2
      simp only [] at hw ⊢
      cases hws : scanFor willOutcomeAt (jsTrim cap) with
      | none => simp [hws]
      | some o =>
        have hsub : hasSub (lowerStr (jsTrim cap)) willWord = true :=
          scanFor_hasSub willOutcomeAt willWord
            willOutcomeAt_startsWith (jsTrim cap) (by simp [hws])
        rw [hw] at hsub
        exact absurd hsub (by simp)

/-- Witness for C8 at a label-free comment. -/
theorem parsePrediction_extraction_witness :
    hasSub (lowerStr (("just a comment").toList)) predictionLabel = false
    ∧ parsePrediction (("just a comment").toList) ⟨2026, 5, 15⟩ = none :=
  ⟨by decide, parsePrediction_extraction.1 _ _ (by decide)⟩

/-- Counterexample to claim C5: on a claim line containing both a
`within 30 days` fragment and a `by March 2026` fragment, the extracted
deadline is the calendar parse of the `by <Month Year>` fragment
(Mar 1 2026), not `now` plus 30 days (Jan 31 2025 for the clock reading
Jan 1 2025): the source tries `by\s+(\w+\s+\d{4})` first and `within`
last, the opposite of the claimed priority order. -/
theorem deadline_pattern_order_counterexample :
    parsePrediction (("PREDICTION: X will happen within 30 days by March 2026").toList)
        ⟨2025, 0, 1⟩
      = some ⟨("X will happen within 30 days by March 2026").toList,
              ("happen within 30 days").toList,
              some ⟨2026, 2, 1⟩, 5, ("other").toList,
              ("PREDICTION: X will happen within 30 days by March 2026").toList⟩
    ∧ setDateAdd ⟨2025, 0, 1⟩ 30 = ⟨2025, 0, 31⟩
    ∧ ((⟨2026, 2, 1⟩ : JsDate) ≠ ⟨2025, 0, 31⟩) := by
  decide

/-- Claim C5 as amended: the deadline patterns are evaluated in the
source order — `by <Month Year>` first, then `by M/D/YYYY`, then
`by end of X`, then `within N units` last — stopping at the first
pattern whose capture parses; consequently, when the `by <Month Year>`
pattern matches and its capture parses, its calendar date is the
deadline, as on the text combining `within 30 days` with
`by March 2026`. -/
theorem deadline_pattern_order_amended :
    (∀ (text : List Char) (now : JsDate) (cap : List Char) (d : JsDate),
        scanFor byMonthYearAt text = some cap →
        parseDateString cap now = some d →
        findDeadline text now = some d)
    ∧ findDeadline (("X will happen within 30 days by March 2026").toList)
        ⟨2025, 0, 1⟩ = some ⟨2026, 2, 1⟩ := by
  constructor
  · intro text now cap d h1 h2
    simp [findDeadline, tryDeadlines, h1, h2]
  · decide

/-- Witness for the amended C5 on the combined text. -/
theorem deadline_pattern_order_witness :
    scanFor byMonthYearAt (("X will happen within 30 days by March 2026").toList)
        = some (("March 2026").toList)
    ∧ parseDateString (("March 2026").toList) ⟨2025, 0, 1⟩ = some ⟨2026, 2, 1⟩
    ∧ findDeadline (("X will happen within 30 days by March 2026").toList)
        ⟨2025, 0, 1⟩ = some ⟨2026, 2, 1⟩ :=
  ⟨by decide, by decide,
   deadline_pattern_order_amended.1
     (("X will happen within 30 days by March 2026").toList) ⟨2025, 0, 1⟩
     (("March 2026").toList) ⟨2026, 2, 1⟩ (by decide) (by decide)⟩

/-- Counterexample to claim C6: `parseDateString` reads the wall clock
internally (`new Date()`), so the same fragment `within 30 days`
resolves to different timestamps at different wall-clock moments —
Jan 31 2025 when read on Jan 1 2025 but Feb 1 2025 when read on
Jan 2 2025. -/
theorem parseDateString_reads_clock_counterexample :
    parseDateString (("within 30 days").toList) ⟨2025, 0, 1⟩
        = some ⟨2025, 0, 31⟩
    ∧ parseDateString (("within 30 days").toList) ⟨2025, 0, 2⟩
        = some ⟨2025, 1, 1⟩
    ∧ ((⟨2025, 0, 31⟩ : JsDate) ≠ (⟨2025, 1, 1⟩ : JsDate)) := by
  decide

/-- Claim C6 as amended: the resolver is a pure function of the
fragment and of the wall-clock reading it takes internally; it is
independent of the clock exactly on the absolute-date branch — for a
fragment containing neither `within` nor `end of`, two evaluations at
different wall-clock moments return the same result. -/
theorem parseDateString_clock_free_amended :
    ∀ (fragment : List Char) (now1 now2 : JsDate),
      hasSub (lowerStr (jsTrim fragment)) withinWord = false →
      hasSub (lowerStr (jsTrim fragment)) endOfWord = false →
      parseDateString fragment now1 = parseDateString fragment now2 := by
  intro frag n1 n2 h1 h2
  simp [parseDateString, h1, h2]

/-- Witness for the amended C6 on the absolute fragment `March 2026`
evaluated at two clock readings. -/
theorem parseDateString_clock_free_witness :
    hasSub (lowerStr (jsTrim (("March 2026").toList))) withinWord = false
    ∧ hasSub (lowerStr (jsTrim (("March 2026").toList))) endOfWord = false
    ∧ parseDateString (("March 2026").toList) ⟨2025, 0, 1⟩
        = parseDateString (("March 2026").toList) ⟨2030, 7, 9⟩ :=
  ⟨by decide, by decide,
   parseDateString_clock_free_amended _ _ _ (by decide) (by decide)⟩

end Oracle
